import Mathlib

/-!
Verification development for the rippingTUI pipeline engine.

The source is shallowly embedded: C++ strings become `List Char` (for tool
output lines) or `String` (for constructed messages), `double` becomes `ℚ`,
`int`/`long` become `Int`/`Nat` with explicit range hypotheses where the C++
conversion functions (stoi/stol) would throw, and the regular-expression
searches of `std::regex_search` are embedded as explicit leftmost-match
scanners over character lists.  Values of default-initialized C++ `double`
members are indeterminate; they are modelled by explicit seed parameters.
-/

/-- Numeric value of a decimal digit string, as computed by stoi/stol/stod on
the digits matched by a regex group. -/
def digitsToNat (ds : List Char) : Nat :=
  ds.foldl (fun n c => n * 10 + (c.toNat - 48)) 0

/-- Match a literal pattern at the head of the input; on success return the
rest of the input. -/
def matchLit : List Char → List Char → Option (List Char)
  | [], cs => some cs
  | _ :: _, [] => none
  | p :: ps, c :: cs => if c = p then matchLit ps cs else none

/-- `std::string::find(pat) != npos`: the input has `pat` as a substring. -/
def containsSub (pat : List Char) : List Char → Bool
  | [] => (matchLit pat []).isSome
  | c :: rest => (matchLit pat (c :: rest)).isSome || containsSub pat rest

/-- `line.substr(pos + pat.size())` where `pos` is the first occurrence of
`pat`: everything after the first occurrence of the literal. -/
def afterLit (pat : List Char) : List Char → List Char
  | [] => []
  | c :: rest =>
    match matchLit pat (c :: rest) with
    | some r => r
    | none => afterLit pat rest

/-- `static_cast<int>` on a C++ double: truncation toward zero. -/
def ratTrunc (q : ℚ) : Int :=
  if 0 ≤ q then Int.floor q else Int.ceil q

/-- RipProgress from makemkv_wrapper.h: progress of the rip stage. -/
structure RipProgress where
  current_title : Int
  total_titles : Int
  percentage : ℚ
  current_file : String
  status_message : String
deriving DecidableEq

/-- Try to match the regex `PRGV:(\d+),(\d+),(\d+)` at the current position;
on success return the numeric values of the three groups. -/
def prgvAt (cs : List Char) : Option (Nat × Nat × Nat) :=
  match matchLit ("PRGV:").data cs with
  | none => none
  | some r1 =>
    let d1 := r1.takeWhile Char.isDigit
    let r2 := r1.dropWhile Char.isDigit
    if d1 = [] then none else
    match r2 with
    | ',' :: r3 =>
      let d2 := r3.takeWhile Char.isDigit
      let r4 := r3.dropWhile Char.isDigit
      if d2 = [] then none else
      match r4 with
      | ',' :: r5 =>
        let d3 := r5.takeWhile Char.isDigit
        if d3 = [] then none else
        some (digitsToNat d1, digitsToNat d2, digitsToNat d3)
      | _ => none
    | _ => none

/-- `std::regex_search` with the PRGV pattern: leftmost match in the line. -/
def searchPRGV : List Char → Option (Nat × Nat × Nat)
  | [] => prgvAt []
  | c :: rest =>
    match prgvAt (c :: rest) with
    | some v => some v
    | none => searchPRGV rest

/-- One iteration of the line loop of MakeMKVWrapper::execute_makemkv:
given the current local progress and one output line, produce the updated
progress and the progress callback emitted for this line, if any. -/
def ripLineStep (p : RipProgress) (line : List Char) : RipProgress × Option RipProgress :=
  if containsSub ("PRGV:").data line then
    match searchPRGV line with
    | some (current, _, max) =>
      if 0 < max then
        let pct : ℚ := ((current : ℚ) * 100) / (max : ℚ)
        let p1 := { p with
          percentage := pct,
          status_message := "Progress: " ++ toString (ratTrunc pct) ++ "%" }
        (p1, some p1)
      else (p, none)
    | none => (p, none)
  else if containsSub ("PRGT:").data line then
    let p1 := { p with status_message := String.mk (afterLit ("PRGT:").data line) }
    (p1, some p1)
  else (p, none)

/-- The whole line loop of execute_makemkv: final progress and the list of
emitted progress callbacks, in order. -/
def ripProcessLines (p : RipProgress) : List (List Char) → RipProgress × List RipProgress
  | [] => (p, [])
  | l :: ls =>
    let s := ripLineStep p l
    let r := ripProcessLines s.1 ls
    (r.1, (match s.2 with | some e => [e] | none => []) ++ r.2)

/-- Behaviour of one external process invocation: whether popen succeeds,
the standard-output lines read by the fgets loop, and whether the exit
status returned by pclose is zero. -/
structure ProcBehavior where
  spawn_ok : Bool
  out_lines : List (List Char)
  exit_ok : Bool

/-- Observable events of a rip run: external-process launches and progress
callbacks. -/
inductive RipEvent
  | launch (title_index : Int)
  | cb (p : RipProgress)
deriving DecidableEq

/-- MakeMKVWrapper::execute_makemkv, as the trace of events it produces for
one title together with its boolean result.  The local RipProgress starts
with current_title = 1 and total_titles = 1; its percentage member is a
default-initialized double, modelled by the `seed` parameter. -/
def execute_makemkv (seed : ℚ) (title_index : Int) (beh : ProcBehavior) :
    List RipEvent × Bool :=
  if beh.spawn_ok then
    let p0 : RipProgress :=
      { current_title := 1, total_titles := 1, percentage := seed,
        current_file := "", status_message := "" }
    (RipEvent.launch title_index :: (ripProcessLines p0 beh.out_lines).2.map RipEvent.cb,
     beh.exit_ok)
  else ([RipEvent.launch title_index], false)

/-- The events produced for the item at 0-based position `i` of `n` in
MakeMKVWrapper::rip_titles: the initial callback built in the loop body,
followed by everything execute_makemkv produces. -/
def ripItemEvents (i n : Nat) (t : Int) (beh : ProcBehavior) (seed : ℚ) : List RipEvent :=
  RipEvent.cb
    { current_title := (i : Int) + 1, total_titles := (n : Int), percentage := 0,
      current_file := "", status_message := "Ripping title " ++ toString t }
    :: (execute_makemkv seed t beh).1

/-- The loop of rip_titles from position `i`, over the remaining items
(title index, process behaviour, percentage seed). -/
def ripGo (n : Nat) (i : Nat) : List (Int × ProcBehavior × ℚ) → List RipEvent × Bool
  | [] => ([], true)
  | (t, beh, seed) :: rest =>
    if (execute_makemkv seed t beh).2 then
      let r := ripGo n (i + 1) rest
      (ripItemEvents i n t beh seed ++ r.1, r.2)
    else (ripItemEvents i n t beh seed, false)

/-- MakeMKVWrapper::rip_titles: processes the selected titles in order,
aborting after the first failed item; result is the `success` flag. -/
def rip_titles (items : List (Int × ProcBehavior × ℚ)) : List RipEvent × Bool :=
  ripGo items.length 0 items

/-- Number of external-process invocations in an event trace. -/
def countLaunches : List RipEvent → Nat
  | [] => 0
  | RipEvent.launch _ :: r => countLaunches r + 1
  | RipEvent.cb _ :: r => countLaunches r

/-- Number of items the rip loop invokes a process for: all items up to and
including the first failing one. -/
def invokedCount : List (Int × ProcBehavior × ℚ) → Nat
  | [] => 0
  | (_, beh, _) :: rest =>
    if beh.spawn_ok && beh.exit_ok then invokedCount rest + 1 else 1

/-- The progress record produced by the PRGV branch of execute_makemkv for
group values `c` (current) and `x` (max). -/
def prgvUpdate (p : RipProgress) (c x : Nat) : RipProgress :=
  { p with
    percentage := ((c : ℚ) * 100) / (x : ℚ),
    status_message :=
      "Progress: " ++ toString (ratTrunc (((c : ℚ) * 100) / (x : ℚ))) ++ "%" }

/-- Indeterminate values of the default-initialized double members of a C++
EncodeProgress: C++ default-initialization leaves scalar members
uninitialized, so each fresh EncodeProgress carries arbitrary values there. -/
structure Seed where
  percentage : ℚ
  fps : ℚ
  avg_fps : ℚ

/-- EncodeProgress from handbrake_wrapper.h. -/
structure EncodeProgress where
  input_file : String
  output_file : String
  percentage : ℚ
  fps : ℚ
  avg_fps : ℚ
  eta : String
  status_message : String
deriving DecidableEq

/-- `std::setfill('0') << std::setw(2)` rendering of a non-negative int. -/
def pad2 (n : Nat) : String :=
  if n < 10 then "0" ++ toString n else toString n

/-- The HH:MM:SS string built from ETASeconds by parse_json_progress. -/
def fmtHMS (s : Nat) : String :=
  pad2 (s / 3600) ++ ":" ++ pad2 (s % 3600 / 60) ++ ":" ++ pad2 (s % 60)

/-- Literal part of the regex `"Percent":\s*(\d+\.?\d*)`. -/
def pctKey : List Char := ("\"Percent\":").data

/-- Literal part of the regex `"Rate":\s*(\d+\.?\d*)`. -/
def rateKey : List Char := ("\"Rate\":").data

/-- Literal part of the regex `"RateAvg":\s*(\d+\.?\d*)`. -/
def rateAvgKey : List Char := ("\"RateAvg\":").data

/-- Literal part of the regex `"ETASeconds":\s*(\d+)`. -/
def etaKey : List Char := ("\"ETASeconds\":").data

/-- The substring checked by execute_handbrake before parsing a JSON line. -/
def progressKey : List Char := ("\"Progress\"").data

/-- The double read by stod from a decimal literal with integer part `ip`
and `fl` fraction digits of value `f`. -/
def decValue (ip f fl : Nat) : ℚ :=
  (ip : ℚ) + (f : ℚ) / (10 : ℚ) ^ fl

/-- Match the number pattern `\d+\.?\d*` at the current position and return
the matched digits as (integer part, fraction value, fraction length);
stod of the match is `decValue` of this triple. -/
def numAt (cs : List Char) : Option (Nat × Nat × Nat) :=
  let d1 := cs.takeWhile Char.isDigit
  let r1 := cs.dropWhile Char.isDigit
  if d1 = [] then none else
  match r1 with
  | '.' :: r2 =>
    let d2 := r2.takeWhile Char.isDigit
    some (digitsToNat d1, digitsToNat d2, d2.length)
  | _ => some (digitsToNat d1, 0, 0)

/-- Match `key` then `\s*` then `\d+\.?\d*` at the current position. -/
def keyNumAt (key : List Char) (cs : List Char) : Option (Nat × Nat × Nat) :=
  match matchLit key cs with
  | none => none
  | some r1 => numAt (r1.dropWhile Char.isWhitespace)

/-- `std::regex_search` with pattern `key\s*(\d+\.?\d*)`: leftmost match,
as the digit components of the captured group. -/
def searchKeyNum (key : List Char) : List Char → Option (Nat × Nat × Nat)
  | [] => keyNumAt key []
  | c :: rest =>
    match keyNumAt key (c :: rest) with
    | some v => some v
    | none => searchKeyNum key rest

/-- Match `key` then `\s*` then `(\d+)` at the current position; value as
read by stoi. -/
def keyNatAt (key : List Char) (cs : List Char) : Option Nat :=
  match matchLit key cs with
  | none => none
  | some r1 =>
    let r2 := r1.dropWhile Char.isWhitespace
    let d := r2.takeWhile Char.isDigit
    if d = [] then none else some (digitsToNat d)

/-- `std::regex_search` with pattern `key\s*(\d+)`: leftmost match. -/
def searchKeyNat (key : List Char) : List Char → Option Nat
  | [] => keyNatAt key []
  | c :: rest =>
    match keyNatAt key (c :: rest) with
    | some v => some v
    | none => searchKeyNat key rest

/-- The percentage member after the Percent extraction of
parse_json_progress: the matched value, or the member's prior
(default-initialized) value when the pattern is absent. -/
def jsonPct (u : Seed) (line : List Char) : ℚ :=
  match searchKeyNum pctKey line with
  | some (a, b, k) => decValue a b k
  | none => u.percentage

/-- The fps member after the Rate extraction of parse_json_progress. -/
def jsonFps (u : Seed) (line : List Char) : ℚ :=
  match searchKeyNum rateKey line with
  | some (a, b, k) => decValue a b k
  | none => u.fps

/-- The avg_fps member after the RateAvg extraction of parse_json_progress. -/
def jsonAvg (u : Seed) (line : List Char) : ℚ :=
  match searchKeyNum rateAvgKey line with
  | some (a, b, k) => decValue a b k
  | none => u.avg_fps

/-- The eta member after the ETASeconds extraction of parse_json_progress:
formatted HH:MM:SS on a match, otherwise the empty string the member was
constructed with. -/
def jsonEta (line : List Char) : String :=
  match searchKeyNat etaKey line with
  | some s => fmtHMS s
  | none => ""

/-- HandBrakeWrapper::parse_json_progress: builds a fresh EncodeProgress,
extracts each of Percent, Rate, RateAvg, ETASeconds independently, derives
status_message from the (possibly default-initialized) percentage, and
always returns a value. -/
def parse_json_progress (u : Seed) (line : List Char) : Option EncodeProgress :=
  some
    { input_file := "", output_file := "",
      percentage := jsonPct u line,
      fps := jsonFps u line,
      avg_fps := jsonAvg u line,
      eta := jsonEta line,
      status_message := "Encoding: " ++ toString (ratTrunc (jsonPct u line)) ++ "%" }

/-- Match `\d+\.\d+` (decimal point required, as in the legacy progress
regex) at the current position; returns the digit components and the rest. -/
def numDotAt (cs : List Char) : Option ((Nat × Nat × Nat) × List Char) :=
  let d1 := cs.takeWhile Char.isDigit
  let r1 := cs.dropWhile Char.isDigit
  if d1 = [] then none else
  match r1 with
  | '.' :: r2 =>
    let d2 := r2.takeWhile Char.isDigit
    let r3 := r2.dropWhile Char.isDigit
    if d2 = [] then none
    else some ((digitsToNat d1, digitsToNat d2, d2.length), r3)
  | _ => none

/-- Match `(\d+\.\d+)` immediately followed by the literal `lit`. -/
def numLitAt (lit : List Char) (cs : List Char) : Option ((Nat × Nat × Nat) × List Char) :=
  match numDotAt cs with
  | none => none
  | some (q, r) =>
    match matchLit lit r with
    | none => none
    | some r2 => some (q, r2)

/-- Lazy gap of the legacy regex: earliest following position where
`(\d+\.\d+)` followed by `lit` matches. -/
def scanNumLit (lit : List Char) : List Char → Option ((Nat × Nat × Nat) × List Char)
  | [] => numLitAt lit []
  | c :: rest =>
    match numLitAt lit (c :: rest) with
    | some v => some v
    | none => scanNumLit lit rest

/-- Match `avg (\d+\.\d+) fps` at the current position. -/
def avgAt (cs : List Char) : Option ((Nat × Nat × Nat) × List Char) :=
  match matchLit ("avg ").data cs with
  | none => none
  | some r => numLitAt (" fps").data r

/-- Earliest following position where `avg (\d+\.\d+) fps` matches. -/
def scanAvg : List Char → Option ((Nat × Nat × Nat) × List Char)
  | [] => avgAt []
  | c :: rest =>
    match avgAt (c :: rest) with
    | some v => some v
    | none => scanAvg rest

/-- Match `ETA (\d+h\d+m\d+s)` at the current position; the captured group
is passed through as a string, exactly as the code stores match[4]. -/
def etaTextAt (cs : List Char) : Option String :=
  match matchLit ("ETA ").data cs with
  | none => none
  | some r =>
    let d1 := r.takeWhile Char.isDigit
    let r1 := r.dropWhile Char.isDigit
    if d1 = [] then none else
    match r1 with
    | 'h' :: r2 =>
      let d2 := r2.takeWhile Char.isDigit
      let r3 := r2.dropWhile Char.isDigit
      if d2 = [] then none else
      match r3 with
      | 'm' :: r4 =>
        let d3 := r4.takeWhile Char.isDigit
        let r5 := r4.dropWhile Char.isDigit
        if d3 = [] then none else
        match r5 with
        | 's' :: _ =>
          some (String.mk (d1 ++ 'h' :: d2 ++ 'm' :: d3 ++ ['s']))
        | _ => none
      | _ => none
    | _ => none

/-- Earliest following position where `ETA (\d+h\d+m\d+s)` matches. -/
def scanEtaText : List Char → Option String
  | [] => etaTextAt []
  | c :: rest =>
    match etaTextAt (c :: rest) with
    | some v => some v
    | none => scanEtaText rest

/-- Leftmost match of the legacy progress regex
`(\d+\.\d+) %.*?(\d+\.\d+) fps.*?avg (\d+\.\d+) fps.*?ETA (\d+h\d+m\d+s)`
starting at the current position. -/
def legacyAt (cs : List Char) :
    Option ((Nat × Nat × Nat) × (Nat × Nat × Nat) × (Nat × Nat × Nat) × String) :=
  match numLitAt (" %").data cs with
  | none => none
  | some (pct, r1) =>
    match scanNumLit (" fps").data r1 with
    | none => none
    | some (fps, r2) =>
      match scanAvg r2 with
      | none => none
      | some (avg, r3) =>
        match scanEtaText r3 with
        | none => none
        | some eta => some (pct, fps, avg, eta)

/-- `std::regex_search` with the legacy progress regex. -/
def searchLegacy :
    List Char → Option ((Nat × Nat × Nat) × (Nat × Nat × Nat) × (Nat × Nat × Nat) × String)
  | [] => legacyAt []
  | c :: rest =>
    match legacyAt (c :: rest) with
    | some v => some v
    | none => searchLegacy rest

/-- One iteration of the line loop of HandBrakeWrapper::execute_handbrake:
the JSON-progress branch (guarded by a `"Progress"` substring check)
followed by the legacy-regex branch, each emitting a callback with the
updated progress.  `u` is the seed for the fresh EncodeProgress which
parse_json_progress default-constructs for this call. -/
def hbStep (ifile ofile : String) (u : Seed) (p : EncodeProgress) (line : List Char) :
    EncodeProgress × List EncodeProgress :=
  let s1 :=
    if containsSub progressKey line then
      match parse_json_progress u line with
      | some parsed =>
        let p1 := { parsed with input_file := ifile, output_file := ofile }
        (p1, [p1])
      | none => (p, [])
    else (p, [])
  match searchLegacy line with
  | some (pct, fps, avg, eta) =>
    let p2 := { s1.1 with
      percentage := decValue pct.1 pct.2.1 pct.2.2,
      fps := decValue fps.1 fps.2.1 fps.2.2,
      avg_fps := decValue avg.1 avg.2.1 avg.2.2,
      eta := eta,
      status_message :=
        "Encoding: " ++ toString (ratTrunc (decValue pct.1 pct.2.1 pct.2.2)) ++ "%" }
    (p2, s1.2 ++ [p2])
  | none => s1

/-- The whole line loop of execute_handbrake over the output lines, each
paired with the seed of the EncodeProgress its parse call constructs. -/
def hbLines (ifile ofile : String) :
    EncodeProgress → List (List Char × Seed) → EncodeProgress × List EncodeProgress
  | p, [] => (p, [])
  | p, (l, u) :: rest =>
    let s := hbStep ifile ofile u p l
    let r := hbLines ifile ofile s.1 rest
    (r.1, s.2 ++ r.2)

/-- HandBrakeWrapper::execute_handbrake: result flag and emitted progress
callbacks.  The local EncodeProgress sets input_file, output_file and
percentage = 0; its fps and avg_fps stay default-initialized (outer seed). -/
def execute_handbrake (ifile ofile : String) (outer : Seed)
    (inputs : List (List Char × Seed)) (spawn_ok exit_ok : Bool) :
    Bool × List EncodeProgress :=
  if spawn_ok then
    let p0 : EncodeProgress :=
      { input_file := ifile, output_file := ofile, percentage := 0,
        fps := outer.fps, avg_fps := outer.avg_fps, eta := "", status_message := "" }
    (exit_ok, (hbLines ifile ofile p0 inputs).2)
  else (false, [])

/-- AppState from main_ui.h: all UI/pipeline states the orchestrator can be
in.  There is no failure state in the enumeration. -/
inductive AppState
  | SCANNING
  | DISC_SELECTION
  | TITLE_SELECTION
  | RIPPING
  | ENCODING
  | COMPLETED
deriving DecidableEq

/-- The state effect of MainUI::check_rip_completion once the rip future is
ready: on success the state is left as it is (the code stays in RIPPING and
waits for the encode key), on failure the state is set to COMPLETED. -/
def check_rip_completion (rip_success : Bool) (s : AppState) : AppState :=
  if rip_success then s else AppState.COMPLETED

/-- The encode loop of MainUI::start_encoding over the per-file results:
returns the all_success flag and the number of files for which an encode
process was started (the loop breaks right after the first failure). -/
def encodeLoop : List Bool → Bool × Nat
  | [] => (true, 0)
  | r :: rest =>
    if r then
      let x := encodeLoop rest
      (x.1, x.2 + 1)
    else (false, 1)

/-- The number of encode invocations the loop performs: every file up to
and including the first failing one. -/
def encInvoked : List Bool → Nat
  | [] => 0
  | r :: rest => if r then encInvoked rest + 1 else 1

/-- The state after the async encode lambda of start_encoding finishes:
COMPLETED when every file succeeded, otherwise the state is not written at
all and remains the ENCODING it was set to when the stage started. -/
def encode_final_state (results : List Bool) : AppState :=
  if (encodeLoop results).1 then AppState.COMPLETED else AppState.ENCODING

/-- How an external tool is launched: either a single command string handed
to a shell (popen), or an executable with an argument vector. -/
inductive LaunchedCommand
  | shell (cmd : String)
  | argv (prog : String) (args : List String)
deriving DecidableEq

/-- Whether the launch passes its arguments as a vector. -/
def LaunchedCommand.uses_argv : LaunchedCommand → Bool
  | LaunchedCommand.argv _ _ => true
  | LaunchedCommand.shell _ => false

/-- The launch performed by MakeMKVWrapper::execute_makemkv: the command
string it concatenates and hands to popen. -/
def makemkv_command (title_index : Int) (output_dir : String) : LaunchedCommand :=
  LaunchedCommand.shell
    ("stdbuf -o0 makemkvcon -r --progress=-stdout mkv disc:0 " ++
      toString title_index ++ " " ++ output_dir ++ " 2>&1")

/-- The launch performed by HandBrakeWrapper::execute_handbrake: the command
string it concatenates and hands to popen. -/
def handbrake_command (input_file output_file : String) (title_number : Int)
    (encoder encoder_preset : String) (quality : Int) : LaunchedCommand :=
  LaunchedCommand.shell
    ("HandBrakeCLI -i \"" ++ input_file ++ "\" -o \"" ++ output_file ++
      "\" -e " ++ encoder ++ " --encoder-preset " ++ encoder_preset ++
      " -q " ++ toString quality ++ " -m --subtitle scan -F --subtitle-burned" ++
      " --all-audio --title " ++ toString title_number ++ " --json 2>&1")

/-- Match the first alternative `_t(\d+)\.mkv` of the title-number regex at
the current position. -/
def titleAlt1At (cs : List Char) : Option Nat :=
  match matchLit ("_t").data cs with
  | none => none
  | some r1 =>
    let d := r1.takeWhile Char.isDigit
    let r2 := r1.dropWhile Char.isDigit
    if d = [] then none else
    match matchLit (".mkv").data r2 with
    | some _ => some (digitsToNat d)
    | none => none

/-- Match the second alternative `title(\d+)\.mkv` at the current position. -/
def titleAlt2At (cs : List Char) : Option Nat :=
  match matchLit ("title").data cs with
  | none => none
  | some r1 =>
    let d := r1.takeWhile Char.isDigit
    let r2 := r1.dropWhile Char.isDigit
    if d = [] then none else
    match matchLit (".mkv").data r2 with
    | some _ => some (digitsToNat d)
    | none => none

/-- Match the regex `_t(\d+)\.mkv|title(\d+)\.mkv` at the current position:
the first alternative is preferred, as in ECMAScript alternation. -/
def titleAt (cs : List Char) : Option Nat :=
  match titleAlt1At cs with
  | some v => some v
  | none => titleAlt2At cs

/-- `std::regex_search` with the title-number regex: leftmost match. -/
def searchTitle : List Char → Option Nat
  | [] => titleAt []
  | c :: rest =>
    match titleAt (c :: rest) with
    | some v => some v
    | none => searchTitle rest

/-- The title-number recovery of MainUI::check_rip_completion and
MainUI::run: the matched group value, defaulting to 1 when the regex does
not match anywhere in the filename. -/
def extract_title_num (filename : List Char) : Int :=
  match searchTitle filename with
  | some v => (v : Int)
  | none => 1

/-- Modelled from the spec wording for comparison: the same recovery but
with the suffix number required to be a two-digit-or-more decimal, which is
what the specification claims the pattern demands. -/
def specTitleAt (cs : List Char) : Option Nat :=
  match titleAt cs with
  | some v =>
    match matchLit ("_t").data cs with
    | some r1 => if 2 ≤ (r1.takeWhile Char.isDigit).length then some v else none
    | none =>
      match matchLit ("title").data cs with
      | some r1 => if 2 ≤ (r1.takeWhile Char.isDigit).length then some v else none
      | none => none
  | none => none

/-- Modelled from the spec wording: leftmost match of the two-digit-or-more
variant of the title pattern. -/
def specSearchTitle : List Char → Option Nat
  | [] => specTitleAt []
  | c :: rest =>
    match specTitleAt (c :: rest) with
    | some v => some v
    | none => specSearchTitle rest

/-- Modelled from the spec wording: title number with the two-digit-or-more
pattern, default 1. -/
def spec_title_num (filename : List Char) : Int :=
  match specSearchTitle filename with
  | some v => (v : Int)
  | none => 1

/-- Projection of an event to the (current_title, total_titles) tag of a
progress callback. -/
def eventTitleFields : RipEvent → Option (Int × Int)
  | RipEvent.cb p => some (p.current_title, p.total_titles)
  | RipEvent.launch _ => none

/-- An all-zero seed for default-initialized doubles. -/
def zeroSeed : Seed := ⟨0, 0, 0⟩

/-- A seed with value 7 in every member, exhibiting that default-initialized
doubles need not be zero. -/
def sevenSeed : Seed := ⟨7, 7, 7⟩

/-- A structured line carrying only a Percent field. -/
def cexL1 : List Char := ("\x7b\"Progress\": \x7b\"Percent\": 45.5\x7d\x7d").data

/-- A structured line carrying only a Rate field. -/
def cexL2 : List Char := ("\x7b\"Progress\": \x7b\"Rate\": 10.0\x7d\x7d").data

/-- A process that succeeds and prints nothing. -/
def behQuiet : ProcBehavior := ⟨true, [], true⟩

/-- A process that prints one PRGV line at 50 percent and succeeds. -/
def behPrgv : ProcBehavior := ⟨true, [("PRGV:50,0,100").data], true⟩

/-- A two-item rip run whose second item prints a PRGV line. -/
def ripCexItems : List (Int × ProcBehavior × ℚ) := [(10, behQuiet, 0), (11, behPrgv, 0)]

/-- Three rip items of which the second one fails. -/
def threeItems : List (Int × ProcBehavior × ℚ) :=
  [(1, ⟨true, [], true⟩, 0), (2, ⟨true, [], false⟩, 0), (3, ⟨true, [], true⟩, 0)]

/-- A process that prints one PRGT status line and succeeds. -/
def behPrgt : ProcBehavior := ⟨true, [("PRGT:hello").data], true⟩

/-- The full structured test line of the specification. -/
def fullJsonLine : List Char :=
  ("\x7b\"Progress\": \x7b\"Percent\": 45.5, \"Rate\": 123.4, \"RateAvg\": 120.1, " ++
    "\"ETASeconds\": 932\x7d\x7d").data

theorem matchLit_self_append (pat rest : List Char) : matchLit pat (pat ++ rest) = some rest := by
  induction pat with
  | nil => rfl
  | cons p ps ih => simp [matchLit, ih]

theorem containsSub_of_isSome (pat : List Char) (cs : List Char)
    (h : (matchLit pat cs).isSome = true) : containsSub pat cs = true := by
  cases cs with
  | nil => simpa [containsSub] using h
  | cons c rest => simp [containsSub, h]

theorem containsSub_self_append (pat rest : List Char) :
    containsSub pat (pat ++ rest) = true := by
  apply containsSub_of_isSome
  simp [matchLit_self_append]

theorem takeWhile_digits_append (ds rest : List Char)
    (h : ∀ c ∈ ds, c.isDigit = true) :
    (ds ++ rest).takeWhile Char.isDigit = ds ++ rest.takeWhile Char.isDigit := by
  induction ds with
  | nil => simp
  | cons d ds ih =>
    have hd : d.isDigit = true := h d (by simp)
    simp only [List.cons_append, List.takeWhile_cons_of_pos hd, List.cons.injEq, true_and]
    exact ih (fun c hc => h c (by simp [hc]))

theorem dropWhile_digits_append (ds rest : List Char)
    (h : ∀ c ∈ ds, c.isDigit = true) :
    (ds ++ rest).dropWhile Char.isDigit = rest.dropWhile Char.isDigit := by
  induction ds with
  | nil => simp
  | cons d ds ih =>
    have hd : d.isDigit = true := h d (by simp)
    simp only [List.cons_append, List.dropWhile_cons_of_pos hd]
    exact ih (fun c hc => h c (by simp [hc]))

theorem takeWhile_digits_all (ds : List Char) (h : ∀ c ∈ ds, c.isDigit = true) :
    ds.takeWhile Char.isDigit = ds := by
  have := takeWhile_digits_append ds [] h
  simpa using this

theorem dropWhile_digits_all (ds : List Char) (h : ∀ c ∈ ds, c.isDigit = true) :
    ds.dropWhile Char.isDigit = [] := by
  have := dropWhile_digits_append ds [] h
  simpa using this

theorem isDigit_not_ws {c : Char} (h : c.isDigit = true) : c.isWhitespace = false := by
  cases hw : c.isWhitespace
  · rfl
  · exfalso
    have hc : c = ' ' ∨ c = '\t' ∨ c = '\r' ∨ c = '\n' := by
      simpa [Char.isWhitespace, Bool.or_eq_true, decide_eq_true_eq, or_assoc] using hw
    rcases hc with h1 | h1 | h1 | h1 <;> (subst h1; exact absurd h (by decide))


theorem searchPRGV_here {cs : List Char} {v : Nat × Nat × Nat}
    (h : prgvAt cs = some v) : searchPRGV cs = some v := by
  cases cs with
  | nil => rw [searchPRGV.eq_1, h]
  | cons c rest =>
    conv_lhs => rw [searchPRGV.eq_2]
    rw [h]

theorem searchKeyNat_here {key cs : List Char} {v : Nat}
    (h : keyNatAt key cs = some v) : searchKeyNat key cs = some v := by
  cases cs with
  | nil => rw [searchKeyNat.eq_1, h]
  | cons c rest =>
    conv_lhs => rw [searchKeyNat.eq_2]
    rw [h]

theorem searchKeyNat_cons_none {key : List Char} {c : Char} {rest : List Char}
    (h : keyNatAt key (c :: rest) = none) :
    searchKeyNat key (c :: rest) = searchKeyNat key rest := by
  conv_lhs => rw [searchKeyNat.eq_2]
  rw [h]

theorem searchKeyNat_skip (key : List Char) (pre tail : List Char)
    (h : ∀ k, k < pre.length → keyNatAt key (pre.drop k ++ tail) = none) :
    searchKeyNat key (pre ++ tail) = searchKeyNat key tail := by
  induction pre with
  | nil => rfl
  | cons p ps ih =>
    have h0 : keyNatAt key (p :: (ps ++ tail)) = none := by
      have := h 0 (by simp)
      simpa using this
    have hrest : ∀ k, k < ps.length → keyNatAt key (ps.drop k ++ tail) = none := by
      intro k hk
      have := h (k + 1) (by simpa using Nat.succ_lt_succ hk)
      simpa using this
    calc searchKeyNat key ((p :: ps) ++ tail)
        = searchKeyNat key (ps ++ tail) := searchKeyNat_cons_none h0
      _ = searchKeyNat key tail := ih hrest

theorem searchTitle_here {cs : List Char} {v : Nat}
    (h : titleAt cs = some v) : searchTitle cs = some v := by
  cases cs with
  | nil => rw [searchTitle.eq_1, h]
  | cons c rest =>
    conv_lhs => rw [searchTitle.eq_2]
    rw [h]

theorem searchTitle_cons_none {c : Char} {rest : List Char}
    (h : titleAt (c :: rest) = none) :
    searchTitle (c :: rest) = searchTitle rest := by
  conv_lhs => rw [searchTitle.eq_2]
  rw [h]

theorem searchTitle_skip (pre tail : List Char)
    (h : ∀ k, k < pre.length → titleAt (pre.drop k ++ tail) = none) :
    searchTitle (pre ++ tail) = searchTitle tail := by
  induction pre with
  | nil => rfl
  | cons p ps ih =>
    have h0 : titleAt (p :: (ps ++ tail)) = none := by
      have := h 0 (by simp)
      simpa using this
    have hrest : ∀ k, k < ps.length → titleAt (ps.drop k ++ tail) = none := by
      intro k hk
      have := h (k + 1) (by simpa using Nat.succ_lt_succ hk)
      simpa using this
    calc searchTitle ((p :: ps) ++ tail)
        = searchTitle (ps ++ tail) := searchTitle_cons_none h0
      _ = searchTitle tail := ih hrest

theorem prgvAt_form (ds1 ds2 ds3 : List Char)
    (h1 : ∀ c ∈ ds1, c.isDigit = true) (h2 : ∀ c ∈ ds2, c.isDigit = true)
    (h3 : ∀ c ∈ ds3, c.isDigit = true)
    (n1 : ds1 ≠ []) (n2 : ds2 ≠ []) (n3 : ds3 ≠ []) :
    prgvAt (("PRGV:").data ++ (ds1 ++ ',' :: (ds2 ++ ',' :: ds3)))
      = some (digitsToNat ds1, digitsToNat ds2, digitsToNat ds3) := by
  have hcomma : (',').isDigit = false := by decide
  have ht1 : (ds1 ++ ',' :: (ds2 ++ ',' :: ds3)).takeWhile Char.isDigit = ds1 := by
    rw [takeWhile_digits_append _ _ h1]
    simp [List.takeWhile_cons_of_neg, hcomma]
  have hd1 : (ds1 ++ ',' :: (ds2 ++ ',' :: ds3)).dropWhile Char.isDigit
      = ',' :: (ds2 ++ ',' :: ds3) := by
    rw [dropWhile_digits_append _ _ h1]
    simp [List.dropWhile_cons_of_neg, hcomma]
  have ht2 : (ds2 ++ ',' :: ds3).takeWhile Char.isDigit = ds2 := by
    rw [takeWhile_digits_append _ _ h2]
    simp [List.takeWhile_cons_of_neg, hcomma]
  have hd2 : (ds2 ++ ',' :: ds3).dropWhile Char.isDigit = ',' :: ds3 := by
    rw [dropWhile_digits_append _ _ h2]
    simp [List.dropWhile_cons_of_neg, hcomma]
  have ht3 : ds3.takeWhile Char.isDigit = ds3 := takeWhile_digits_all _ h3
  simp only [prgvAt, matchLit_self_append, ht1, hd1, ht2, hd2, ht3]
  rw [if_neg n1, if_neg n2, if_neg n3]

theorem ripLineStep_prgv (p : RipProgress) (ds1 ds2 ds3 : List Char)
    (h1 : ∀ c ∈ ds1, c.isDigit = true) (h2 : ∀ c ∈ ds2, c.isDigit = true)
    (h3 : ∀ c ∈ ds3, c.isDigit = true)
    (n1 : ds1 ≠ []) (n2 : ds2 ≠ []) (n3 : ds3 ≠ []) :
    ripLineStep p (("PRGV:").data ++ (ds1 ++ ',' :: (ds2 ++ ',' :: ds3)))
      = if 0 < digitsToNat ds3 then
          (prgvUpdate p (digitsToNat ds1) (digitsToNat ds3),
           some (prgvUpdate p (digitsToNat ds1) (digitsToNat ds3)))
        else (p, none) := by
  have hc : containsSub ("PRGV:").data
      (("PRGV:").data ++ (ds1 ++ ',' :: (ds2 ++ ',' :: ds3))) = true :=
    containsSub_self_append _ _
  have hs : searchPRGV (("PRGV:").data ++ (ds1 ++ ',' :: (ds2 ++ ',' :: ds3)))
      = some (digitsToNat ds1, digitsToNat ds2, digitsToNat ds3) :=
    searchPRGV_here (prgvAt_form ds1 ds2 ds3 h1 h2 h3 n1 n2 n3)
  rw [ripLineStep, if_pos hc, hs]
  rfl

theorem titleAt_alt1 (ds : List Char)
    (h : ∀ c ∈ ds, c.isDigit = true) (hne : ds ≠ []) :
    titleAt (("_t").data ++ (ds ++ (".mkv").data)) = some (digitsToNat ds) := by
  have hdot : ('.').isDigit = false := by decide
  have ht : (ds ++ (".mkv").data).takeWhile Char.isDigit = ds := by
    rw [takeWhile_digits_append _ _ h]
    simp [List.takeWhile_cons_of_neg, hdot]
  have hd : (ds ++ (".mkv").data).dropWhile Char.isDigit = (".mkv").data := by
    rw [dropWhile_digits_append _ _ h]
    simp [List.dropWhile_cons_of_neg, hdot]
  have hm : matchLit ((".mkv").data) ((".mkv").data) = some [] := by
    have := matchLit_self_append ((".mkv").data) []
    simpa using this
  simp only [titleAt, titleAlt1At, matchLit_self_append, ht, hd, hm]
  rw [if_neg hne]

theorem titleAt_alt2 (ds : List Char)
    (h : ∀ c ∈ ds, c.isDigit = true) (hne : ds ≠ []) :
    titleAt (("title").data ++ (ds ++ (".mkv").data)) = some (digitsToNat ds) := by
  have hdot : ('.').isDigit = false := by decide
  have halt1 : titleAlt1At (("title").data ++ (ds ++ (".mkv").data)) = none := by
    rfl
  have ht : (ds ++ (".mkv").data).takeWhile Char.isDigit = ds := by
    rw [takeWhile_digits_append _ _ h]
    simp [List.takeWhile_cons_of_neg, hdot]
  have hd : (ds ++ (".mkv").data).dropWhile Char.isDigit = (".mkv").data := by
    rw [dropWhile_digits_append _ _ h]
    simp [List.dropWhile_cons_of_neg, hdot]
  have hm : matchLit ((".mkv").data) ((".mkv").data) = some [] := by
    have := matchLit_self_append ((".mkv").data) []
    simpa using this
  simp only [titleAt, titleAlt2At, halt1, matchLit_self_append, ht, hd, hm]
  rw [if_neg hne]

theorem keyNatAt_key_ws_digits (key ds rest : List Char) (c0 : Char)
    (h : ∀ c ∈ ds, c.isDigit = true) (hne : ds ≠ []) (hc0 : c0.isDigit = false) :
    keyNatAt key (key ++ (' ' :: (ds ++ c0 :: rest))) = some (digitsToNat ds) := by
  obtain ⟨d, ds', rfl⟩ : ∃ d ds', ds = d :: ds' := by
    cases ds with
    | nil => exact absurd rfl hne
    | cons d ds' => exact ⟨d, ds', rfl⟩
  have hdw : d.isWhitespace = false := isDigit_not_ws (h d (by simp))
  have hws : (' ' :: ((d :: ds') ++ c0 :: rest)).dropWhile Char.isWhitespace
      = (d :: ds') ++ c0 :: rest := by
    rw [List.dropWhile_cons_of_pos (by decide)]
    exact List.dropWhile_cons_of_neg (by simp [hdw])
  have ht : ((d :: ds') ++ c0 :: rest).takeWhile Char.isDigit = d :: ds' := by
    rw [takeWhile_digits_append _ _ h]
    simp [List.takeWhile_cons_of_neg, hc0]
  simp only [keyNatAt, matchLit_self_append, hws, ht]
  rw [if_neg hne]

theorem searchKeyNat_eta_line (ds : List Char)
    (h : ∀ c ∈ ds, c.isDigit = true) (hne : ds ≠ []) :
    searchKeyNat etaKey
      (("\x7b\"Progress\": \x7b\"ETASeconds\": ").data ++ ds ++ ("\x7d\x7d").data)
      = some (digitsToNat ds) := by
  have hline : ("\x7b\"Progress\": \x7b\"ETASeconds\": ").data ++ ds ++ ("\x7d\x7d").data
      = ("\x7b\"Progress\": \x7b").data ++
          (etaKey ++ (' ' :: (ds ++ Char.ofNat 125 :: [Char.ofNat 125]))) := by
    simp [etaKey]
  rw [hline]
  rw [searchKeyNat_skip etaKey (("\x7b\"Progress\": \x7b").data)
      (etaKey ++ (' ' :: (ds ++ Char.ofNat 125 :: [Char.ofNat 125])))
      (by
        intro k hk
        rw [show ((("\x7b\"Progress\": \x7b").data).length) = 14 from rfl] at hk
        interval_cases k <;> rfl)]
  exact searchKeyNat_here
    (keyNatAt_key_ws_digits etaKey ds [Char.ofNat 125] (Char.ofNat 125) h hne (by decide))

theorem extract_title_num_tpat (stem : List Char) (ds : List Char)
    (h : ∀ c ∈ ds, c.isDigit = true) (hne : ds ≠ [])
    (hskip : ∀ k, k < stem.length →
      titleAt (stem.drop k ++ (("_t").data ++ (ds ++ (".mkv").data))) = none) :
    extract_title_num (stem ++ (("_t").data ++ (ds ++ (".mkv").data)))
      = (digitsToNat ds : Int) := by
  rw [extract_title_num, searchTitle_skip stem _ hskip,
    searchTitle_here (titleAt_alt1 ds h hne)]

theorem extract_title_num_titlepat (ds : List Char)
    (h : ∀ c ∈ ds, c.isDigit = true) (hne : ds ≠ []) :
    extract_title_num (("title").data ++ (ds ++ (".mkv").data))
      = (digitsToNat ds : Int) := by
  rw [extract_title_num, searchTitle_here (titleAt_alt2 ds h hne)]

theorem ripLineStep_keeps (p : RipProgress) (l : List Char) :
    ((ripLineStep p l).1).current_title = p.current_title
    ∧ ((ripLineStep p l).1).total_titles = p.total_titles
    ∧ ∀ e, (ripLineStep p l).2 = some e → e = (ripLineStep p l).1 := by
  unfold ripLineStep
  split
  · split
    · split
      · exact ⟨rfl, rfl, fun e he => (Option.some.inj he).symm⟩
      · exact ⟨rfl, rfl, fun e he => by cases he⟩
    · exact ⟨rfl, rfl, fun e he => by cases he⟩
  · split
    · exact ⟨rfl, rfl, fun e he => (Option.some.inj he).symm⟩
    · exact ⟨rfl, rfl, fun e he => by cases he⟩

theorem ripProcessLines_titles (ls : List (List Char)) : ∀ (p : RipProgress),
    p.current_title = 1 → p.total_titles = 1 →
    ∀ e ∈ (ripProcessLines p ls).2, e.current_title = 1 ∧ e.total_titles = 1 := by
  induction ls with
  | nil =>
    intro p h1 h2 e he
    simp [ripProcessLines] at he
  | cons l ls ih =>
    intro p h1 h2 e he
    obtain ⟨hct, htt, hsome⟩ := ripLineStep_keeps p l
    simp only [ripProcessLines, List.mem_append] at he
    rcases he with he | he
    · cases hs : (ripLineStep p l).2 with
      | none => rw [hs] at he; simp at he
      | some e0 =>
        rw [hs] at he
        simp at he
        rw [he, hsome e0 hs]
        exact ⟨by rw [hct, h1], by rw [htt, h2]⟩
    · exact ih (ripLineStep p l).1 (by rw [hct, h1]) (by rw [htt, h2]) e he

theorem execute_makemkv_snd (seed : ℚ) (t : Int) (beh : ProcBehavior) :
    (execute_makemkv seed t beh).2 = (beh.spawn_ok && beh.exit_ok) := by
  unfold execute_makemkv
  cases hb : beh.spawn_ok <;> simp [hb]

theorem countLaunches_map_cb (l : List RipProgress) :
    countLaunches (l.map RipEvent.cb) = 0 := by
  induction l with
  | nil => rfl
  | cons a l ih => simpa [countLaunches] using ih

theorem countLaunches_append (a b : List RipEvent) :
    countLaunches (a ++ b) = countLaunches a + countLaunches b := by
  induction a with
  | nil => simp [countLaunches]
  | cons e a ih =>
    cases e with
    | launch t => simp [countLaunches, ih]; omega
    | cb p => simp [countLaunches, ih]

theorem countLaunches_execute (seed : ℚ) (t : Int) (beh : ProcBehavior) :
    countLaunches (execute_makemkv seed t beh).1 = 1 := by
  unfold execute_makemkv
  cases hb : beh.spawn_ok <;> simp [hb, countLaunches, countLaunches_map_cb]

theorem countLaunches_ripItem (i n : Nat) (t : Int) (beh : ProcBehavior) (seed : ℚ) :
    countLaunches (ripItemEvents i n t beh seed) = 1 := by
  simp [ripItemEvents, countLaunches, countLaunches_execute]

theorem ripGo_spec (n : Nat) (items : List (Int × ProcBehavior × ℚ)) : ∀ i : Nat,
    ((ripGo n i items).2 = true ↔ ∀ x ∈ items, (x.2.1.spawn_ok && x.2.1.exit_ok) = true)
    ∧ countLaunches (ripGo n i items).1 = invokedCount items := by
  induction items with
  | nil => intro i; simp [ripGo, countLaunches, invokedCount]
  | cons hd rest ih =>
    intro i
    obtain ⟨t, beh, seed⟩ := hd
    by_cases hok : (beh.spawn_ok && beh.exit_ok) = true
    · constructor
      · rw [show ripGo n i ((t, beh, seed) :: rest)
            = (ripItemEvents i n t beh seed ++ (ripGo n (i + 1) rest).1,
               (ripGo n (i + 1) rest).2) from by
          simp only [ripGo, execute_makemkv_snd, hok, if_true]]
        simp only [List.mem_cons]
        constructor
        · intro hr x hx
          rcases hx with rfl | hx
          · exact hok
          · exact ((ih (i + 1)).1.mp hr) x hx
        · intro hall
          exact (ih (i + 1)).1.mpr (fun x hx => hall x (Or.inr hx))
      · rw [show ripGo n i ((t, beh, seed) :: rest)
            = (ripItemEvents i n t beh seed ++ (ripGo n (i + 1) rest).1,
               (ripGo n (i + 1) rest).2) from by
          simp only [ripGo, execute_makemkv_snd, hok, if_true]]
        simp only [countLaunches_append, countLaunches_ripItem, (ih (i + 1)).2]
        simp [invokedCount, hok]
        omega
    · have hstep : ripGo n i ((t, beh, seed) :: rest)
          = (ripItemEvents i n t beh seed, false) := by
        simp only [ripGo, execute_makemkv_snd]
        rw [if_neg hok]
      rw [hstep]
      constructor
      · constructor
        · intro h
          exact absurd h (by simp)
        · intro hall
          exact absurd (hall (t, beh, seed) (by simp)) hok
      · simp [countLaunches_ripItem, invokedCount, hok]

theorem encodeLoop_spec (results : List Bool) :
    ((encodeLoop results).1 = true ↔ ∀ r ∈ results, r = true)
    ∧ (encodeLoop results).2 = encInvoked results := by
  induction results with
  | nil => simp [encodeLoop, encInvoked]
  | cons r rest ih =>
    cases r with
    | true => simpa [encodeLoop, encInvoked] using ih
    | false => simp [encodeLoop, encInvoked]

theorem encodeLoop_first_fail (results : List Bool) : ∀ k : Nat,
    results.get? k = some false → (∀ j, j < k → results.get? j = some true) →
    (encodeLoop results).2 = k + 1 := by
  induction results with
  | nil => intro k hk _; cases k <;> simp at hk
  | cons r rest ih =>
    intro k hk hj
    cases k with
    | zero =>
      simp at hk
      simp [encodeLoop, hk]
    | succ k =>
      have hr : r = true := by
        have := hj 0 (Nat.succ_pos k)
        simpa using this
      have hk' : rest.get? k = some false := by simpa using hk
      have hj' : ∀ j, j < k → rest.get? j = some true := by
        intro j hjk
        have := hj (j + 1) (Nat.succ_lt_succ hjk)
        simpa using this
      simp [encodeLoop, hr, ih k hk' hj']

/-- C6: for every rip-tool output line of the form PRGV:c,m,x (decimal digit
strings, values within the range of a C++ long), if the value of x is
positive then the line loop updates the percentage to c*100/x and emits a
progress callback carrying exactly that percentage; if the value of x is
zero, no callback is emitted and the progress (percentage included) is
unchanged. -/
theorem prgv_percentage_parse (p : RipProgress) (ds1 ds2 ds3 : List Char)
    (h1 : ∀ c ∈ ds1, c.isDigit = true) (h2 : ∀ c ∈ ds2, c.isDigit = true)
    (h3 : ∀ c ∈ ds3, c.isDigit = true)
    (n1 : ds1 ≠ []) (n2 : ds2 ≠ []) (n3 : ds3 ≠ [])
    (_hb1 : digitsToNat ds1 < 2 ^ 63) (_hb3 : digitsToNat ds3 < 2 ^ 63) :
    (0 < digitsToNat ds3 →
      ripLineStep p (("PRGV:").data ++ (ds1 ++ ',' :: (ds2 ++ ',' :: ds3)))
        = (prgvUpdate p (digitsToNat ds1) (digitsToNat ds3),
           some (prgvUpdate p (digitsToNat ds1) (digitsToNat ds3)))
      ∧ (prgvUpdate p (digitsToNat ds1) (digitsToNat ds3)).percentage
          = (digitsToNat ds1 : ℚ) * 100 / (digitsToNat ds3 : ℚ))
    ∧ (digitsToNat ds3 = 0 →
      ripLineStep p (("PRGV:").data ++ (ds1 ++ ',' :: (ds2 ++ ',' :: ds3))) = (p, none)) := by
  have h := ripLineStep_prgv p ds1 ds2 ds3 h1 h2 h3 n1 n2 n3
  constructor
  · intro hpos
    rw [h, if_pos hpos]
    exact ⟨rfl, rfl⟩
  · intro hz
    rw [h, if_neg (by omega)]

theorem prgv_percentage_parse_witness :
    (ripLineStep ⟨1, 1, 0, "", ""⟩
        (("PRGV:").data ++ (("500").data ++ ',' :: (("0").data ++ ',' :: ("1000").data)))).2.map
      (fun e => e.percentage) = some 50
    ∧ ripLineStep ⟨1, 1, 0, "", ""⟩
        (("PRGV:").data ++ (("5").data ++ ',' :: (("0").data ++ ',' :: ("0").data)))
      = (⟨1, 1, 0, "", ""⟩, none) := by
  have ha := prgv_percentage_parse ⟨1, 1, 0, "", ""⟩ (("500").data) (("0").data) (("1000").data)
    (by decide) (by decide) (by decide) (by decide) (by decide) (by decide)
    (by decide) (by decide)
  have hb := prgv_percentage_parse ⟨1, 1, 0, "", ""⟩ (("5").data) (("0").data) (("0").data)
    (by decide) (by decide) (by decide) (by decide) (by decide) (by decide)
    (by decide) (by decide)
  constructor
  · rw [(ha.1 (by decide)).1]
    show some ((digitsToNat (("500").data) : ℚ) * 100 / (digitsToNat (("1000").data) : ℚ))
      = some 50
    rw [show digitsToNat (("500").data) = 500 from by decide,
      show digitsToNat (("1000").data) = 1000 from by decide]
    norm_num
  · exact hb.2 (by decide)

theorem ripItemEvents_head (i n : Nat) (t : Int) (beh : ProcBehavior) (seed : ℚ) :
    ∃ tail, ripItemEvents i n t beh seed
      = RipEvent.cb
          { current_title := (i : Int) + 1, total_titles := (n : Int), percentage := 0,
            current_file := "", status_message := "Ripping title " ++ toString t }
        :: RipEvent.launch t :: tail := by
  cases hsp : beh.spawn_ok
  · exact ⟨[], by simp [ripItemEvents, execute_makemkv, hsp]⟩
  · refine ⟨(ripProcessLines
      { current_title := 1, total_titles := 1, percentage := seed,
        current_file := "", status_message := "" } beh.out_lines).2.map RipEvent.cb, ?_⟩
    simp [ripItemEvents, execute_makemkv, hsp]

/-- C5: the rip stage invokes one external process per item strictly in
order until the first failure: its result is true exactly when every item's
process was spawned and exited with status zero, and the number of launched
processes equals the number of items up to and including the first failing
one; the encode loop of start_encoding satisfies the same property for its
per-file results. -/
theorem stage_aborts_on_failure (items : List (Int × ProcBehavior × ℚ)) :
    (((rip_titles items).2 = true ↔
        ∀ x ∈ items, (x.2.1.spawn_ok && x.2.1.exit_ok) = true)
      ∧ countLaunches (rip_titles items).1 = invokedCount items)
    ∧ ∀ results : List Bool,
        ((encodeLoop results).1 = true ↔ ∀ r ∈ results, r = true)
        ∧ (encodeLoop results).2 = encInvoked results :=
  ⟨ripGo_spec items.length items 0, fun results => encodeLoop_spec results⟩

theorem stage_aborts_on_failure_witness :
    countLaunches (rip_titles threeItems).1 = 2 ∧ (rip_titles threeItems).2 = false := by
  have h := stage_aborts_on_failure threeItems
  constructor
  · exact (h.1.2).trans (by decide)
  · have hnot : ¬ ∀ x ∈ threeItems, (x.2.1.spawn_ok && x.2.1.exit_ok) = true := by decide
    cases hres : (rip_titles threeItems).2
    · rfl
    · exact absurd (h.1.1.mp hres) hnot

/-- C10: before launching the external process for the item at 1-based
position i of n, rip_titles emits exactly one initial progress callback,
with current_title = i, total_titles = n, percentage = 0 and a status
message naming the title index being ripped; in particular a run over a
non-empty item list begins with that callback followed by the launch of the
first item's process. -/
theorem rip_initial_callback :
    (∀ (i n : Nat) (t : Int) (beh : ProcBehavior) (seed : ℚ),
      ∃ tail, ripItemEvents i n t beh seed
        = RipEvent.cb
            { current_title := (i : Int) + 1, total_titles := (n : Int), percentage := 0,
              current_file := "", status_message := "Ripping title " ++ toString t }
          :: RipEvent.launch t :: tail)
    ∧ ∀ (t : Int) (beh : ProcBehavior) (seed : ℚ) (rest : List (Int × ProcBehavior × ℚ)),
      ∃ tail ok, rip_titles ((t, beh, seed) :: rest)
        = (RipEvent.cb
            { current_title := 1, total_titles := ((rest.length + 1 : Nat) : Int),
              percentage := 0, current_file := "",
              status_message := "Ripping title " ++ toString t }
          :: RipEvent.launch t :: tail, ok) := by
  constructor
  · exact ripItemEvents_head
  · intro t beh seed rest
    obtain ⟨tail, htail⟩ := ripItemEvents_head 0 (rest.length + 1) t beh seed
    by_cases hex : (execute_makemkv seed t beh).2 = true
    · refine ⟨tail ++ (ripGo (rest.length + 1) 1 rest).1, (ripGo (rest.length + 1) 1 rest).2, ?_⟩
      simp only [rip_titles, List.length_cons, ripGo, hex, if_true]
      rw [htail]
      simp
    · refine ⟨tail, false, ?_⟩
      simp only [rip_titles, List.length_cons, ripGo]
      rw [if_neg hex, htail]
      simp

/-- C3 (amended): every progress callback emitted inside execute_makemkv —
in particular every PRGV-derived one — carries current_title = 1 and
total_titles = 1 regardless of the stage's actual item position and count,
because execute_makemkv builds its local progress with those constants;
only the initial per-item callback of rip_titles carries the stage
position. -/
theorem prgv_callback_title_fields (seed : ℚ) (t : Int) (beh : ProcBehavior)
    (p : RipProgress) (h : RipEvent.cb p ∈ (execute_makemkv seed t beh).1) :
    p.current_title = 1 ∧ p.total_titles = 1 := by
  unfold execute_makemkv at h
  cases hsp : beh.spawn_ok
  · rw [hsp] at h
    simp at h
  · rw [hsp] at h
    simp at h
    exact ripProcessLines_titles beh.out_lines _ rfl rfl p h

theorem prgv_callback_title_fields_witness :
    (⟨1, 1, 0, "", "hello"⟩ : RipProgress).current_title = 1
    ∧ (⟨1, 1, 0, "", "hello"⟩ : RipProgress).total_titles = 1 :=
  prgv_callback_title_fields 0 11 behPrgt ⟨1, 1, 0, "", "hello"⟩ (by decide)

/-- C3 counterexample: in a rip run over two items, the PRGV-derived
callback emitted while processing item 2 of 2 is tagged current_title = 1,
total_titles = 1 — not 2 of 2 as the claim requires (the trace below shows
the item-2 initial callback tagged (2, 2) and the following PRGV callback
tagged (1, 1)). -/
theorem prgv_callback_title_fields_cex :
    ((rip_titles ripCexItems).1.map eventTitleFields)
      = [some (1, 2), none, some (2, 2), none, some (1, 1)]
    ∧ ((1 : Int), (1 : Int)) ≠ ((2 : Int), (2 : Int)) := by
  constructor
  · decide
  · decide

/-- C1 (amended): when a stage fails no further stage items are attempted,
but the orchestrator has no Failed state: a rip failure sets the state to
COMPLETED (the same terminal state as success), and an encode failure
leaves the state unchanged at ENCODING. -/
theorem stage_failure_state (s : AppState) (results : List Bool) :
    check_rip_completion false s = AppState.COMPLETED
    ∧ check_rip_completion true s = s
    ∧ ((encodeLoop results).1 = false → encode_final_state results = AppState.ENCODING)
    ∧ ∀ k, results.get? k = some false → (∀ j, j < k → results.get? j = some true) →
        (encodeLoop results).2 = k + 1 := by
  refine ⟨rfl, rfl, ?_, encodeLoop_first_fail results⟩
  intro h
  rw [encode_final_state, h]
  rfl

theorem stage_failure_state_witness :
    check_rip_completion false AppState.RIPPING = AppState.COMPLETED
    ∧ encode_final_state [true, false, true] = AppState.ENCODING
    ∧ (encodeLoop [true, false, true]).2 = 2 := by
  have h := stage_failure_state AppState.RIPPING [true, false, true]
  refine ⟨h.1, h.2.2.1 (by decide), h.2.2.2 1 (by decide) ?_⟩
  intro j hj
  interval_cases j
  decide

/-- C1 counterexample: there is no Failed terminal state — on rip failure
the state becomes COMPLETED, exactly the state an entirely successful run
ends in, and on encode failure the state stays ENCODING. -/
theorem stage_failure_state_cex :
    check_rip_completion false AppState.RIPPING = AppState.COMPLETED
    ∧ encode_final_state [false] = AppState.ENCODING
    ∧ encode_final_state [true] = AppState.COMPLETED
    ∧ check_rip_completion false AppState.RIPPING = encode_final_state [true] := by
  exact ⟨rfl, by decide, by decide, by decide⟩

/-- C2 (amended): each tool invocation is built by concatenating the
arguments — the user-controlled fields verbatim among them — into one
shell command string handed to popen; no invocation passes an argument
vector. -/
theorem command_shell_concatenation (t q : Int) (d i o e pr : String) :
    (∃ s, makemkv_command t d = LaunchedCommand.shell s
      ∧ s.data = ("stdbuf -o0 makemkvcon -r --progress=-stdout mkv disc:0 ").data
          ++ (toString t).data ++ (" ").data ++ d.data ++ (" 2>&1").data)
    ∧ ∃ s, handbrake_command i o t e pr q = LaunchedCommand.shell s
      ∧ s.data = ("HandBrakeCLI -i \"").data ++ i.data ++ ("\" -o \"").data ++ o.data
          ++ ("\" -e ").data ++ e.data ++ (" --encoder-preset ").data ++ pr.data
          ++ (" -q ").data ++ (toString q).data
          ++ (" -m --subtitle scan -F --subtitle-burned --all-audio --title ").data
          ++ (toString t).data ++ (" --json 2>&1").data := by
  constructor
  · exact ⟨_, rfl, by simp [makemkv_command, String.data_append]⟩
  · exact ⟨_, rfl, by simp [handbrake_command, String.data_append]⟩

/-- C2 counterexample: at concrete inputs neither tool launch uses an
argument vector — both are single shell command strings. -/
theorem command_not_argv_cex :
    (makemkv_command 0 ("./output")).uses_argv = false
    ∧ (handbrake_command ("a.mkv") ("b.mkv") 1 ("x265") ("slow") 22).uses_argv = false :=
  ⟨rfl, rfl⟩

/-- C7 (amended): the title number is recovered by matching `_t` or `title`
followed by ONE or more decimal digits and `.mkv` (the regex uses `\d+`,
not two-or-more), with stoi applied to the digits (int range), and defaults
to 1 when the pattern matches nowhere in the filename. -/
theorem filename_title_number (ds : List Char)
    (h : ∀ c ∈ ds, c.isDigit = true) (hne : ds ≠ [])
    (_hb : digitsToNat ds < 2 ^ 31) :
    extract_title_num (("Movie").data ++ (("_t").data ++ (ds ++ (".mkv").data)))
      = (digitsToNat ds : Int)
    ∧ extract_title_num (("title").data ++ (ds ++ (".mkv").data)) = (digitsToNat ds : Int)
    ∧ extract_title_num (("output.mkv").data) = 1 := by
  refine ⟨?_, extract_title_num_titlepat ds h hne, by decide⟩
  apply extract_title_num_tpat (("Movie").data) ds h hne
  intro k hk
  rw [show ((("Movie").data).length) = 5 from rfl] at hk
  interval_cases k <;> rfl

theorem filename_title_number_witness :
    extract_title_num (("Movie").data ++ (("_t").data ++ ((("03").data) ++ (".mkv").data))) = 3
    ∧ extract_title_num (("output.mkv").data) = 1 := by
  have h := filename_title_number (("03").data) (by decide) (by decide) (by decide)
  exact ⟨h.1.trans (by decide), h.2.2⟩

/-- C7 counterexample: a single-digit suffix — which the claim's
two-digit-or-more pattern would reject, defaulting to 1 — is accepted by
the code's `\d+` pattern: Movie_t3.mkv yields 3, not 1. -/
theorem filename_title_number_cex :
    extract_title_num (("Movie_t3.mkv").data) = 3
    ∧ spec_title_num (("Movie_t3.mkv").data) = 1
    ∧ (3 : Int) ≠ 1 :=
  ⟨by decide, by decide, by decide⟩

/-- C8: for every non-negative ETASeconds value (int range) parsed from a
structured line, the eta string of the parse result is the HH:MM:SS
rendering obtained by integer division into hours, minutes and seconds,
each zero-padded to two digits. -/
theorem eta_formatting (u : Seed) (ds : List Char)
    (h : ∀ c ∈ ds, c.isDigit = true) (hne : ds ≠ [])
    (_hb : digitsToNat ds < 2 ^ 31) :
    ∃ p, parse_json_progress u
        ((("\x7b\"Progress\": \x7b\"ETASeconds\": ").data ++ ds ++ ("\x7d\x7d").data))
      = some p
    ∧ p.eta = pad2 (digitsToNat ds / 3600) ++ ":" ++ pad2 (digitsToNat ds % 3600 / 60)
        ++ ":" ++ pad2 (digitsToNat ds % 60) := by
  have hs := searchKeyNat_eta_line ds h hne
  refine ⟨_, rfl, ?_⟩
  show jsonEta ((("\x7b\"Progress\": \x7b\"ETASeconds\": ").data ++ ds ++ ("\x7d\x7d").data))
    = _
  unfold jsonEta
  rw [hs]
  rfl

theorem eta_formatting_witness :
    (∃ p, parse_json_progress zeroSeed
        ((("\x7b\"Progress\": \x7b\"ETASeconds\": ").data ++ (("932").data) ++ ("\x7d\x7d").data))
      = some p ∧ p.eta = "00:15:32")
    ∧ (parse_json_progress zeroSeed fullJsonLine).map
        (fun p => (p.percentage, p.fps, p.avg_fps, p.eta))
      = some (45.5, 123.4, 120.1, "00:15:32") := by
  constructor
  · obtain ⟨p, hp, heta⟩ :=
      eta_formatting zeroSeed (("932").data) (by decide) (by decide) (by decide)
    exact ⟨p, hp, heta.trans (by decide)⟩
  · have hp : searchKeyNum pctKey fullJsonLine = some (45, 5, 1) := by decide
    have hr : searchKeyNum rateKey fullJsonLine = some (123, 4, 1) := by decide
    have ha : searchKeyNum rateAvgKey fullJsonLine = some (120, 1, 1) := by decide
    have he : searchKeyNat etaKey fullJsonLine = some 932 := by decide
    simp only [parse_json_progress, jsonPct, jsonFps, jsonAvg, jsonEta, hp, hr, ha, he,
      Option.map_some]
    rw [show fmtHMS 932 = "00:15:32" from by decide]
    norm_num [decValue, Prod.ext_iff]

/-- C9 (amended): parse_json_progress returns some result for every input
line; when numeric fields are absent the corresponding members keep the
values the fresh default-constructed EncodeProgress carried (for the double
members these are indeterminate in C++, modelled by the seed — not
guaranteed 0.0), eta stays the empty string, and status_message is derived
from the resulting (possibly indeterminate) percentage. -/
theorem parse_json_always_some (u : Seed) (line : List Char) :
    ∃ p, parse_json_progress u line = some p
    ∧ (searchKeyNum pctKey line = none → p.percentage = u.percentage)
    ∧ (searchKeyNum rateKey line = none → p.fps = u.fps)
    ∧ (searchKeyNum rateAvgKey line = none → p.avg_fps = u.avg_fps)
    ∧ (searchKeyNat etaKey line = none → p.eta = "")
    ∧ p.status_message = "Encoding: " ++ toString (ratTrunc p.percentage) ++ "%" := by
  refine ⟨_, rfl, ?_, ?_, ?_, ?_, rfl⟩
  · intro h
    show jsonPct u line = u.percentage
    unfold jsonPct
    rw [h]
  · intro h
    show jsonFps u line = u.fps
    unfold jsonFps
    rw [h]
  · intro h
    show jsonAvg u line = u.avg_fps
    unfold jsonAvg
    rw [h]
  · intro h
    show jsonEta line = ""
    unfold jsonEta
    rw [h]

theorem parse_json_always_some_witness :
    ∃ p, parse_json_progress sevenSeed progressKey = some p
      ∧ p.percentage = 7 ∧ p.eta = "" := by
  obtain ⟨p, hp, h1, _, _, h4, _⟩ := parse_json_always_some sevenSeed progressKey
  exact ⟨p, hp, h1 (by decide), h4 (by decide)⟩

/-- C9 counterexample: on a line containing "Progress" and no numeric
fields, the parse result's percentage equals the default-initialized
member's value — here 7, not the 0.0 the claim states. -/
theorem parse_json_always_some_cex :
    (parse_json_progress sevenSeed progressKey).map (fun p => p.percentage) = some 7
    ∧ (7 : ℚ) ≠ 0 := by
  constructor
  · simp [parse_json_progress, jsonPct,
      show searchKeyNum pctKey progressKey = none from by decide, sevenSeed]
  · norm_num

/-- C4 (amended): parse_json_progress extracts each of Percent, Rate,
RateAvg, ETASeconds independently — a present field is extracted no matter
which others are absent — but an absent field takes the value of the fresh
default-constructed EncodeProgress (seed for the doubles, empty string for
eta), not its value from any previous progress: indeed the published
progress after a structured line does not depend on the previous progress
at all. -/
theorem json_fields_independent (u : Seed) (line : List Char) :
    (∃ p, parse_json_progress u line = some p
      ∧ (∀ a b k, searchKeyNum pctKey line = some (a, b, k) → p.percentage = decValue a b k)
      ∧ (∀ a b k, searchKeyNum rateKey line = some (a, b, k) → p.fps = decValue a b k)
      ∧ (∀ a b k, searchKeyNum rateAvgKey line = some (a, b, k) → p.avg_fps = decValue a b k)
      ∧ (∀ s, searchKeyNat etaKey line = some s → p.eta = fmtHMS s)
      ∧ (searchKeyNum pctKey line = none → p.percentage = u.percentage)
      ∧ (searchKeyNum rateKey line = none → p.fps = u.fps)
      ∧ (searchKeyNum rateAvgKey line = none → p.avg_fps = u.avg_fps)
      ∧ (searchKeyNat etaKey line = none → p.eta = ""))
    ∧ ∀ (ifile ofile : String) (prev prev' : EncodeProgress),
        containsSub progressKey line = true → searchLegacy line = none →
        (hbStep ifile ofile u prev line).1 = (hbStep ifile ofile u prev' line).1 := by
  constructor
  · refine ⟨_, rfl, ?_, ?_, ?_, ?_, ?_, ?_, ?_, ?_⟩
    · intro a b k h
      show jsonPct u line = decValue a b k
      unfold jsonPct
      rw [h]
    · intro a b k h
      show jsonFps u line = decValue a b k
      unfold jsonFps
      rw [h]
    · intro a b k h
      show jsonAvg u line = decValue a b k
      unfold jsonAvg
      rw [h]
    · intro s h
      show jsonEta line = fmtHMS s
      unfold jsonEta
      rw [h]
    · intro h
      show jsonPct u line = u.percentage
      unfold jsonPct
      rw [h]
    · intro h
      show jsonFps u line = u.fps
      unfold jsonFps
      rw [h]
    · intro h
      show jsonAvg u line = u.avg_fps
      unfold jsonAvg
      rw [h]
    · intro h
      show jsonEta line = ""
      unfold jsonEta
      rw [h]
  · intro ifile ofile prev prev' hc hl
    simp only [hbStep, hc, if_true, hl]
    rfl

theorem json_fields_independent_witness :
    ∃ p, parse_json_progress zeroSeed cexL1 = some p
      ∧ p.percentage = 45.5 ∧ p.fps = 0 := by
  obtain ⟨p, hp, h1, _, _, _, _, h6, _, _⟩ := (json_fields_independent zeroSeed cexL1).1
  refine ⟨p, hp, ?_, ?_⟩
  · rw [h1 45 5 1 (by decide)]
    norm_num [decValue]
  · rw [h6 (by decide)]
    rfl

/-- C4 counterexample: over two consecutive structured lines — the first
carrying Percent 45.5, the second carrying only Rate — the progress
published for the second line has percentage 0 (the fresh
default-initialized value, taken 0 here), not the previous value 45.5 the
claim requires it to keep. -/
theorem json_absent_field_cex :
    ((execute_handbrake ("in.mkv") ("out.mkv") zeroSeed
        [(cexL1, zeroSeed), (cexL2, zeroSeed)] true true).2.map
      (fun p => p.percentage)) = [45.5, 0]
    ∧ ((0 : ℚ) ≠ 45.5) := by
  constructor
  · have h1 : containsSub progressKey cexL1 = true := by decide
    have h2 : containsSub progressKey cexL2 = true := by decide
    have hl1 : searchLegacy cexL1 = none := by decide
    have hl2 : searchLegacy cexL2 = none := by decide
    have hp1 : searchKeyNum pctKey cexL1 = some (45, 5, 1) := by decide
    have hp2 : searchKeyNum pctKey cexL2 = none := by decide
    simp [execute_handbrake, hbLines, hbStep, h1, h2, hl1, hl2, parse_json_progress,
      jsonPct, hp1, hp2, zeroSeed]
    norm_num [decValue]
  · norm_num
